import Mathlib

/-!
Verification of the SanityEngine render hardware interface core against its
specification.  Each C++ component relevant to the checked properties is
shallowly embedded as executable Lean definitions: machine integers are
modelled as `Nat` with explicit reduction modulo `2 ^ 32` wherever the source
uses `uint32_t` arithmetic that can wrap, fallible operations return `Option`,
and the stateful renderer objects are modelled by explicit state passing.
-/

/-- The modulus of `uint32_t` arithmetic. -/
def U32 : Nat := 2 ^ 32

namespace MaterialDataBuffer

/-!
Embedding of `MaterialDataBuffer` (material_data_buffer.hpp).  The class keeps
a raw byte arena together with `num_allocated_bytes : uint32_t`; the template
method `get_next_free_material<T>()` computes

    new_idx             = (num_allocated_bytes / struct_size) + 1;   // integer division
    num_allocated_bytes = struct_size * (new_idx + 1);

and returns `MaterialHandle{new_idx}`.  Only `num_allocated_bytes` matters for
the allocation claims, so the state is that single counter.  `struct_size` is
`sizeof(MaterialDataStruct)`, a positive `uint32_t`, passed here as the
parameter `S`.
-/

/-- State of a `MaterialDataBuffer`: the `num_allocated_bytes` counter
(`uint32_t`, hence kept below `U32`). -/
structure State where
  num_allocated_bytes : Nat
deriving Repr, DecidableEq

/-- `MaterialDataBuffer::get_next_free_material<T>()` for a struct of size `S`:
returns the new handle index and the updated buffer state.  The multiplication
`struct_size * (new_idx + 1)` is performed in `uint32_t`, hence the reduction
modulo `U32`. -/
def get_next_free_material (S : Nat) (b : State) : Nat × State :=
  let new_idx := b.num_allocated_bytes / S + 1
  (new_idx, ⟨(S * (new_idx + 1)) % U32⟩)

/-- The byte range a returned handle denotes inside the shared buffer:
`[index * S, (index + 1) * S)`. -/
def handleByteRange (S idx : Nat) : Set Nat := Set.Ico (idx * S) ((idx + 1) * S)

end MaterialDataBuffer

/-- C5 counterexample input: a fresh buffer (`num_allocated_bytes = 0`) and a
struct whose size is `2 ^ 31` bytes.  The first call returns index 1 and the
`uint32_t` update `2 ^ 31 * 2 mod 2 ^ 32` wraps to `0`, so the second call
returns index 1 again: the two byte ranges coincide. -/
def c5CounterexampleIndices : Nat × Nat :=
  let r1 := MaterialDataBuffer.get_next_free_material (2 ^ 31) ⟨0⟩
  let r2 := MaterialDataBuffer.get_next_free_material (2 ^ 31) r1.2
  (r1.1, r2.1)

/-- C5, counterexample: for struct size `S = 2 ^ 31` on a fresh
`MaterialDataBuffer`, two consecutive calls to `get_next_free_material` both
return index 1, so the byte ranges `[index * S, (index + 1) * S)` of the two
returned handles are equal and in particular overlap — the claim as stated
(ranges never overlap, for every struct size) is false on the code. -/
theorem c5_overlap_at_pow31 :
    c5CounterexampleIndices.1 = 1 ∧ c5CounterexampleIndices.2 = 1 ∧
      ¬ Disjoint (MaterialDataBuffer.handleByteRange (2 ^ 31) c5CounterexampleIndices.1)
        (MaterialDataBuffer.handleByteRange (2 ^ 31) c5CounterexampleIndices.2) := by
  refine ⟨by decide, by decide, ?_⟩
  have h1 : c5CounterexampleIndices.1 = 1 := by decide
  have h2 : c5CounterexampleIndices.2 = 1 := by decide
  rw [h1, h2, Set.not_disjoint_iff]
  exact ⟨2 ^ 31, by simp [MaterialDataBuffer.handleByteRange], by
    simp [MaterialDataBuffer.handleByteRange]⟩

/-- C5, amended: for every two consecutive calls to
`MaterialDataBuffer::get_next_free_material<T>()` for the same struct type of
positive size `S`, provided the `uint32_t` byte counter does not overflow
(`num_allocated_bytes + 2 * S < 2 ^ 32`), the byte ranges
`[index * S, (index + 1) * S)` of the two returned handles do not overlap, and
each returned handle byte offset `index * S` is a multiple of `S`.  In fact
the second index is exactly the first index plus two. -/
theorem c5_consecutive_material_ranges_disjoint (S n : Nat) (hS : 0 < S)
    (hov : n + 2 * S < U32) :
    let r1 := MaterialDataBuffer.get_next_free_material S ⟨n⟩
    let r2 := MaterialDataBuffer.get_next_free_material S r1.2
    r2.1 = r1.1 + 2 ∧
      Disjoint (MaterialDataBuffer.handleByteRange S r1.1)
        (MaterialDataBuffer.handleByteRange S r2.1) ∧
      S ∣ r1.1 * S ∧ S ∣ r2.1 * S := by
  intro r1 r2
  have hidx1 : r1.1 = n / S + 1 := rfl
  -- the first update does not wrap: S * (n / S + 2) ≤ n + 2 * S < U32
  have hle : S * (n / S + 1 + 1) ≤ n + 2 * S := by
    have hdiv : S * (n / S) ≤ n := by
      rw [Nat.mul_comm]
      exact Nat.div_mul_le_self n S
    calc S * (n / S + 1 + 1) = S * (n / S) + S * 2 := by ring
      _ ≤ n + S * 2 := by omega
      _ = n + 2 * S := by ring
  have hnowrap : (S * (n / S + 1 + 1)) % U32 = S * (n / S + 1 + 1) :=
    Nat.mod_eq_of_lt (lt_of_le_of_lt hle hov)
  have hstate : r1.2.num_allocated_bytes = S * (n / S + 1 + 1) := hnowrap
  have hidx2 : r2.1 = n / S + 3 := by
    show r1.2.num_allocated_bytes / S + 1 = n / S + 3
    rw [hstate, Nat.mul_div_cancel_left _ hS]
  refine ⟨by rw [hidx1, hidx2], ?_, dvd_mul_left S r1.1, dvd_mul_left S r2.1⟩
  rw [hidx1, hidx2, MaterialDataBuffer.handleByteRange, MaterialDataBuffer.handleByteRange,
    Set.Ico_disjoint_Ico]
  have h2 : (n / S + 1 + 1) * S ≤ (n / S + 3) * S := by
    apply Nat.mul_le_mul_right
    omega
  simp only [min_le_iff, le_max_iff]
  tauto

/-- Witness for the amended C5 theorem at `S = 4`, `n = 0`: both hypotheses are
satisfiable and the two consecutive calls return indices 1 and 3. -/
theorem c5_consecutive_material_ranges_disjoint_witness :
    (MaterialDataBuffer.get_next_free_material 4
        (MaterialDataBuffer.get_next_free_material 4 ⟨0⟩).2).1 =
      (MaterialDataBuffer.get_next_free_material 4 ⟨0⟩).1 + 2 :=
  (c5_consecutive_material_ranges_disjoint 4 0 (by decide) (by decide)).1

namespace MeshDataStore

/-!
Embedding of `MeshDataStore` (mesh_data_store.hpp / .cpp).  The store owns a
shared vertex buffer and a shared index buffer together with three `uint32_t`
write cursors (`next_free_vertex_byte`, `next_vertex_offset`,
`next_index_offset`).  `add_mesh(vertices, indices, cmds)` offsets every
supplied index by `next_vertex_offset`, uploads the vertex bytes at
`next_free_vertex_byte` and the offset indices at
`next_index_offset * sizeof(Uint32)`, advances all three cursors and returns a
`Mesh{first_vertex, num_vertices, first_index, num_indices}` descriptor.  The
vertex data itself is never inspected, so the embedding is generic in the
vertex type; `sizeof(StandardVertex)` (three floats position, three floats
normal, `uint32` color, `uint32` material_idx, two floats texcoord) is 40
bytes.  Writes into the shared index buffer are logged as
(first 32-bit slot, list of written `uint32` values) pairs.
-/

/-- `sizeof(StandardVertex)` in bytes. -/
def vertexSize : Nat := 40

/-- The `Mesh` descriptor value returned by `add_mesh`. -/
structure Mesh where
  first_vertex : Nat
  num_vertices : Nat
  first_index : Nat
  num_indices : Nat
deriving Repr, DecidableEq

/-- Mutable state of a `MeshDataStore`: the three `uint32_t` cursors, plus a
log of the 32-bit writes performed on the shared index buffer (start slot and
written values, in call order). -/
structure State where
  next_free_vertex_byte : Nat
  next_vertex_offset : Nat
  next_index_offset : Nat
  index_writes : List (Nat × List Nat)
deriving Repr, DecidableEq

/-- A freshly constructed `MeshDataStore`: all cursors zero. -/
def initial : State := ⟨0, 0, 0, []⟩

/-- `MeshDataStore::add_mesh(vertices, indices, cmds)`.  Every step of
`uint32_t` arithmetic reduces modulo `U32` exactly where the C++ casts and
additions wrap. -/
def add_mesh {V : Type} (vertices : List V) (indices : List Nat) (s : State) :
    Mesh × State :=
  let vertex_data_size := (vertices.length * vertexSize) % U32
  let offset_indices := indices.map (fun idx => (idx + s.next_vertex_offset) % U32)
  let index_buffer_byte_offset := (s.next_index_offset * 4) % U32
  let vertex_offset := s.next_free_vertex_byte / vertexSize
  (⟨vertex_offset, vertices.length % U32, s.next_index_offset, indices.length % U32⟩,
   ⟨(s.next_free_vertex_byte + vertex_data_size) % U32,
    (s.next_vertex_offset + vertices.length % U32) % U32,
    (s.next_index_offset + indices.length % U32) % U32,
    s.index_writes ++ [(index_buffer_byte_offset / 4, offset_indices)]⟩)

/-- A sequence of `add_mesh` calls on one store, returning the final state and
the returned `Mesh` descriptors in call order. -/
def addMeshes {V : Type} : List (List V × List Nat) → State → State × List Mesh
  | [], s => (s, [])
  | (vs, is) :: rest, s =>
    let r := add_mesh vs is s
    let r' := addMeshes rest r.2
    (r'.1, r.1 :: r'.2)

/-- Total vertex count of a list of `add_mesh` arguments. -/
def sumV {V : Type} (ms : List (List V × List Nat)) : Nat :=
  (ms.map (fun p => p.1.length)).sum

/-- Total index count of a list of `add_mesh` arguments. -/
def sumI {V : Type} (ms : List (List V × List Nat)) : Nat :=
  (ms.map (fun p => p.2.length)).sum

/-- The index-buffer writes the specification prescribes for a run that starts
with vertex-count base `a` and index cursor `b`: each mesh writes its
caller-supplied indices offset by the running vertex-count base, at the
running index cursor. -/
def expectedWrites {V : Type} (a b : Nat) :
    List (List V × List Nat) → List (Nat × List Nat)
  | [] => []
  | (vs, is) :: rest =>
    (b, is.map (fun idx => (idx + a) % U32)) ::
      expectedWrites (a + vs.length) (b + is.length) rest

/-- The `Mesh` descriptors the specification prescribes for a run that starts
with vertex base `a` and index base `b`: consecutive, adjacent ranges. -/
def expectedMeshes {V : Type} (a b : Nat) :
    List (List V × List Nat) → List Mesh
  | [] => []
  | (vs, is) :: rest =>
    ⟨a, vs.length, b, is.length⟩ :: expectedMeshes (a + vs.length) (b + is.length) rest

/-- Vertex range of a returned `Mesh`: `[first_vertex, first_vertex + num_vertices)`. -/
def vertexRange (m : Mesh) : Set Nat := Set.Ico m.first_vertex (m.first_vertex + m.num_vertices)

/-- Index range of a returned `Mesh`: `[first_index, first_index + num_indices)`. -/
def indexRange (m : Mesh) : Set Nat := Set.Ico m.first_index (m.first_index + m.num_indices)

/-- One `add_mesh` call, in the regime where no `uint32_t` computation wraps:
the descriptor is the current cursors and the counts, the indices written are
the supplied ones offset by `next_vertex_offset`, and the cursors advance by
the respective sizes. -/
theorem add_mesh_nowrap {V : Type} (vs : List V) (is : List Nat) (s : State)
    (hb : s.next_free_vertex_byte = vertexSize * s.next_vertex_offset)
    (h40 : vertexSize * (s.next_vertex_offset + vs.length) < U32)
    (h4 : 4 * (s.next_index_offset + is.length) < U32) :
    add_mesh vs is s =
      (⟨s.next_vertex_offset, vs.length, s.next_index_offset, is.length⟩,
       ⟨vertexSize * (s.next_vertex_offset + vs.length),
        s.next_vertex_offset + vs.length,
        s.next_index_offset + is.length,
        s.index_writes ++
          [(s.next_index_offset,
            is.map (fun idx => (idx + s.next_vertex_offset) % U32))]⟩) := by
  have hvs : vs.length < U32 := by
    simp only [vertexSize] at h40
    omega
  have his : is.length < U32 := by omega
  have hds : (vs.length * vertexSize) % U32 = vs.length * vertexSize := by
    apply Nat.mod_eq_of_lt
    simp only [vertexSize] at h40 ⊢
    omega
  have hbo : (s.next_index_offset * 4) % U32 = s.next_index_offset * 4 :=
    Nat.mod_eq_of_lt (by omega)
  have hvo : s.next_free_vertex_byte / vertexSize = s.next_vertex_offset := by
    rw [hb, Nat.mul_div_cancel_left _ (by decide : 0 < vertexSize)]
  have hfb : (s.next_free_vertex_byte + vs.length * vertexSize) % U32
      = vertexSize * (s.next_vertex_offset + vs.length) := by
    rw [hb]
    have he : vertexSize * s.next_vertex_offset + vs.length * vertexSize
        = vertexSize * (s.next_vertex_offset + vs.length) := by ring
    rw [he]
    exact Nat.mod_eq_of_lt h40
  have hnvo : (s.next_vertex_offset + vs.length % U32) % U32
      = s.next_vertex_offset + vs.length := by
    rw [Nat.mod_eq_of_lt hvs]
    apply Nat.mod_eq_of_lt
    simp only [vertexSize] at h40
    omega
  have hnio : (s.next_index_offset + is.length % U32) % U32
      = s.next_index_offset + is.length := by
    rw [Nat.mod_eq_of_lt his]
    exact Nat.mod_eq_of_lt (by omega)
  have hslot : s.next_index_offset * 4 / 4 = s.next_index_offset :=
    Nat.mul_div_cancel _ (by decide)
  have hs1 : (s.next_vertex_offset + vs.length) % U32 = s.next_vertex_offset + vs.length := by
    apply Nat.mod_eq_of_lt
    simp only [vertexSize] at h40
    omega
  have hs2 : (s.next_index_offset + is.length) % U32 = s.next_index_offset + is.length :=
    Nat.mod_eq_of_lt (by omega)
  unfold add_mesh
  simp only [hds, hbo, hvo, hfb, hnvo, hnio, hslot, hs1, hs2, Nat.mod_eq_of_lt hvs,
    Nat.mod_eq_of_lt his]

end MeshDataStore

namespace MeshDataStore

/-- Characterization of a full `addMeshes` run in the regime where no
`uint32_t` computation wraps: the index-buffer write log extends by the
prescribed blocks and the returned descriptors are consecutive adjacent
ranges starting at the initial cursors. -/
theorem addMeshes_spec {V : Type} :
    ∀ (ms : List (List V × List Nat)) (s : State),
      s.next_free_vertex_byte = vertexSize * s.next_vertex_offset →
      vertexSize * (s.next_vertex_offset + sumV ms) < U32 →
      4 * (s.next_index_offset + sumI ms) < U32 →
      (addMeshes ms s).1.index_writes
          = s.index_writes ++ expectedWrites s.next_vertex_offset s.next_index_offset ms
        ∧ (addMeshes ms s).2 = expectedMeshes s.next_vertex_offset s.next_index_offset ms
  | [], s, _, _, _ => by
    simp [addMeshes, expectedWrites, expectedMeshes]
  | (vs, is) :: rest, s, hb, hv, hi => by
    have hsumV : sumV ((vs, is) :: rest) = vs.length + sumV rest := by
      simp [sumV]
    have hsumI : sumI ((vs, is) :: rest) = is.length + sumI rest := by
      simp [sumI]
    have h40 : vertexSize * (s.next_vertex_offset + vs.length) < U32 := by
      have hle : s.next_vertex_offset + vs.length
          ≤ s.next_vertex_offset + sumV ((vs, is) :: rest) := by
        rw [hsumV]
        omega
      exact lt_of_le_of_lt (Nat.mul_le_mul_left _ hle) hv
    have h4 : 4 * (s.next_index_offset + is.length) < U32 := by
      rw [hsumI] at hi
      omega
    have heq := add_mesh_nowrap vs is s hb h40 h4
    have hrec := addMeshes_spec rest (add_mesh vs is s).2
      (by rw [heq])
      (by
        rw [heq]
        show vertexSize * (s.next_vertex_offset + vs.length + sumV rest) < U32
        rw [hsumV] at hv
        have harr : s.next_vertex_offset + vs.length + sumV rest
            = s.next_vertex_offset + (vs.length + sumV rest) := by omega
        rw [harr]
        exact hv)
      (by
        rw [heq]
        show 4 * (s.next_index_offset + is.length + sumI rest) < U32
        rw [hsumI] at hi
        omega)
    show ((addMeshes rest (add_mesh vs is s).2).1.index_writes = _)
        ∧ ((add_mesh vs is s).1 :: (addMeshes rest (add_mesh vs is s).2).2 = _)
    constructor
    · rw [hrec.1, heq]
      show (s.index_writes ++ [_]) ++ _ = s.index_writes ++ expectedWrites _ _ ((vs, is) :: rest)
      rw [List.append_assoc]
      rfl
    · rw [hrec.2, heq]
      rfl

/-- Position `k` of the prescribed write log: the block starts at the index
cursor advanced by all earlier index counts and writes the supplied indices
offset by the vertex base advanced by all earlier vertex counts. -/
theorem expectedWrites_getD {V : Type} :
    ∀ (ms : List (List V × List Nat)) (a b k : Nat), k < ms.length →
      (expectedWrites a b ms).getD k (0, [])
        = (b + sumI (ms.take k),
           (ms.getD k ([], [])).2.map (fun idx => (idx + (a + sumV (ms.take k))) % U32))
  | [], _, _, k, hk => absurd hk (by simp)
  | (vs, is) :: rest, a, b, 0, _ => by
    simp [expectedWrites, sumI, sumV]
  | (vs, is) :: rest, a, b, k + 1, hk => by
    have hrec := expectedWrites_getD rest (a + vs.length) (b + is.length) k
      (by simpa using hk)
    simp only [expectedWrites, List.getD_cons_succ, List.take_succ_cons, sumI, sumV,
      List.map_cons, List.sum_cons] at hrec ⊢
    rw [hrec]
    have h1 : b + is.length + (List.map (fun p => p.2.length) (List.take k rest)).sum
        = b + (is.length + (List.map (fun p => p.2.length) (List.take k rest)).sum) := by
      omega
    have h2 : a + vs.length + (List.map (fun p => p.1.length) (List.take k rest)).sum
        = a + (vs.length + (List.map (fun p => p.1.length) (List.take k rest)).sum) := by
      omega
    rw [h1, h2]


end MeshDataStore

namespace MeshDataStore

/-- Lower bounds for every descriptor produced by `expectedMeshes`: all of
them start at or after the initial bases. -/
theorem expectedMeshes_mem_bounds {V : Type} :
    ∀ (ms : List (List V × List Nat)) (a b : Nat) (m : Mesh),
      m ∈ expectedMeshes a b ms → a ≤ m.first_vertex ∧ b ≤ m.first_index
  | [], _, _, m, hm => absurd hm (by simp [expectedMeshes])
  | (vs, is) :: rest, a, b, m, hm => by
    simp only [expectedMeshes, List.mem_cons] at hm
    rcases hm with h | h
    · subst h
      exact ⟨le_refl a, le_refl b⟩
    · have hrec := expectedMeshes_mem_bounds rest (a + vs.length) (b + is.length) m h
      omega

/-- Every descriptor produced by `expectedMeshes` carries the vertex and index
counts of one of the supplied meshes. -/
theorem expectedMeshes_mem_counts {V : Type} :
    ∀ (ms : List (List V × List Nat)) (a b : Nat) (m : Mesh),
      m ∈ expectedMeshes a b ms →
        ∃ p ∈ ms, m.num_vertices = p.1.length ∧ m.num_indices = p.2.length
  | [], _, _, m, hm => absurd hm (by simp [expectedMeshes])
  | (vs, is) :: rest, a, b, m, hm => by
    simp only [expectedMeshes, List.mem_cons] at hm
    rcases hm with h | h
    · subst h
      exact ⟨(vs, is), by simp⟩
    · obtain ⟨p, hp, h1, h2⟩ := expectedMeshes_mem_counts rest (a + vs.length) (b + is.length) m h
      exact ⟨p, by simp [hp], h1, h2⟩

/-- The descriptors produced by `expectedMeshes` are pairwise ordered: each
earlier vertex (resp. index) range ends no later than any later one starts. -/
theorem expectedMeshes_pairwise_adjacent {V : Type} :
    ∀ (ms : List (List V × List Nat)) (a b : Nat),
      (expectedMeshes a b ms).Pairwise
        (fun m1 m2 => m1.first_vertex + m1.num_vertices ≤ m2.first_vertex ∧
          m1.first_index + m1.num_indices ≤ m2.first_index)
  | [], _, _ => by simp [expectedMeshes]
  | (vs, is) :: rest, a, b => by
    simp only [expectedMeshes, List.pairwise_cons]
    refine ⟨fun m hm => ?_, expectedMeshes_pairwise_adjacent rest _ _⟩
    have hb := expectedMeshes_mem_bounds rest (a + vs.length) (b + is.length) m hm
    exact hb

end MeshDataStore

/-- C3: for every sequence of `add_mesh` calls on one `MeshDataStore` whose
cumulative sizes stay inside the `uint32_t` range, the block of values the
k-th call writes to the shared index buffer starts at the shared index cursor
(the total index count of all previously added meshes) and each written value
equals the caller-supplied index plus the total vertex count of all previously
added meshes. -/
theorem c3_add_mesh_offsets_indices_by_vertex_base {V : Type}
    (ms : List (List V × List Nat))
    (hv : MeshDataStore.vertexSize * MeshDataStore.sumV ms < U32)
    (hi : 4 * MeshDataStore.sumI ms < U32)
    (hidx : ∀ p ∈ ms, ∀ idx ∈ p.2, idx + MeshDataStore.sumV ms < U32)
    (k : Nat) (hk : k < ms.length) :
    ((MeshDataStore.addMeshes ms MeshDataStore.initial).1.index_writes).getD k (0, [])
      = (MeshDataStore.sumI (ms.take k),
         (ms.getD k ([], [])).2.map
           (fun idx => idx + MeshDataStore.sumV (ms.take k))) := by
  have hrun := MeshDataStore.addMeshes_spec ms MeshDataStore.initial rfl
    (by
      show MeshDataStore.vertexSize * (0 + MeshDataStore.sumV ms) < U32
      simpa using hv)
    (by
      show 4 * (0 + MeshDataStore.sumI ms) < U32
      simpa using hi)
  rw [hrun.1]
  show (MeshDataStore.expectedWrites 0 0 ms).getD k (0, []) = _
  rw [MeshDataStore.expectedWrites_getD ms 0 0 k hk]
  simp only [Nat.zero_add]
  congr 1
  apply List.map_congr_left
  intro idx hmem
  apply Nat.mod_eq_of_lt
  have hmemk : ms.getD k ([], []) ∈ ms := by
    rw [List.getD_eq_getElem ms ([], []) hk]
    exact List.getElem_mem hk
  have hbound := hidx (ms.getD k ([], [])) hmemk idx hmem
  have hsub : MeshDataStore.sumV (ms.take k) ≤ MeshDataStore.sumV ms := by
    unfold MeshDataStore.sumV
    have hsl : List.Sublist ((ms.take k).map (fun p => p.1.length))
        (ms.map (fun p => p.1.length)) :=
      (List.take_sublist k ms).map _
    exact hsl.sum_le_sum (fun x _ => Nat.zero_le x)
  omega

/-- Witness for C3, realizing the concrete anchor of the specification: a mesh
with three vertices and indices 0, 1, 2 appended after an existing 10-vertex
mesh stores the values 10, 11, 12 in the shared index buffer. -/
theorem c3_add_mesh_offsets_indices_by_vertex_base_witness :
    ((MeshDataStore.addMeshes
        [(List.replicate 10 (), [0, 1, 2, 0, 1, 2]), (List.replicate 3 (), [0, 1, 2])]
        MeshDataStore.initial).1.index_writes).getD 1 (0, [])
      = (6, [10, 11, 12]) := by
  have h := c3_add_mesh_offsets_indices_by_vertex_base
    [(List.replicate 10 (), [0, 1, 2, 0, 1, 2]), (List.replicate 3 (), [0, 1, 2])]
    (by decide) (by decide) (by decide) 1 (by decide)
  rw [h]
  rfl

/-- C4 counterexample: the claim as stated quantifies over every sequence of
`add_mesh` calls, but an `add_mesh` call with empty vertex and index vectors
leaves every cursor unchanged, so two such calls return descriptors with equal
`first_vertex` (and `first_index`): the offsets are not strictly increasing
across successive calls. -/
theorem c4_counterexample_two_empty_add_mesh_calls :
    ((MeshDataStore.addMeshes ([([], []), ([], [])] : List (List Unit × List Nat))
          MeshDataStore.initial).2.map MeshDataStore.Mesh.first_vertex) = [0, 0]
      ∧ ¬ ((MeshDataStore.addMeshes ([([], []), ([], [])] : List (List Unit × List Nat))
          MeshDataStore.initial).2.map MeshDataStore.Mesh.first_vertex).Pairwise
            (fun x y => x < y) := by
  constructor
  · rfl
  · decide

/-- C4, amended: for every sequence of `add_mesh` calls between one
`begin_adding_meshes` / `end_adding_meshes` pair in which every call supplies
at least one vertex and at least one index (and the cumulative sizes stay
inside the `uint32_t` range), the returned `Mesh` descriptors have pairwise
disjoint vertex ranges and pairwise disjoint index ranges, and both
`first_vertex` and `first_index` are strictly increasing across successive
calls. -/
theorem c4_mesh_ranges_disjoint_and_increasing {V : Type}
    (ms : List (List V × List Nat))
    (hv : MeshDataStore.vertexSize * MeshDataStore.sumV ms < U32)
    (hi : 4 * MeshDataStore.sumI ms < U32)
    (hne : ∀ p ∈ ms, p.1 ≠ ([] : List V) ∧ p.2 ≠ ([] : List Nat)) :
    ((MeshDataStore.addMeshes ms MeshDataStore.initial).2).Pairwise
      (fun m1 m2 =>
        Disjoint (MeshDataStore.vertexRange m1) (MeshDataStore.vertexRange m2)
          ∧ Disjoint (MeshDataStore.indexRange m1) (MeshDataStore.indexRange m2)
          ∧ m1.first_vertex < m2.first_vertex ∧ m1.first_index < m2.first_index) := by
  have hrun := MeshDataStore.addMeshes_spec ms MeshDataStore.initial rfl
    (by
      show MeshDataStore.vertexSize * (0 + MeshDataStore.sumV ms) < U32
      simpa using hv)
    (by
      show 4 * (0 + MeshDataStore.sumI ms) < U32
      simpa using hi)
  rw [hrun.2]
  have hadj := MeshDataStore.expectedMeshes_pairwise_adjacent ms 0 0
  refine List.Pairwise.imp_of_mem ?_ hadj
  intro m1 m2 hm1 hm2 hrel
  obtain ⟨p, hp, hcv, hci⟩ := MeshDataStore.expectedMeshes_mem_counts ms 0 0 m1 hm1
  have hposv : 0 < m1.num_vertices := by
    rw [hcv]
    exact List.length_pos.mpr (hne p hp).1
  have hposi : 0 < m1.num_indices := by
    rw [hci]
    exact List.length_pos.mpr (hne p hp).2
  refine ⟨?_, ?_, by omega, by omega⟩
  · rw [MeshDataStore.vertexRange, MeshDataStore.vertexRange, Set.Ico_disjoint_Ico]
    omega
  · rw [MeshDataStore.indexRange, MeshDataStore.indexRange, Set.Ico_disjoint_Ico]
    omega

/-- Witness for the amended C4 theorem: a run of two nonempty meshes (one
vertex with one index, then two vertices with three indices) satisfies every
hypothesis and yields pairwise disjoint, strictly increasing descriptors. -/
theorem c4_mesh_ranges_disjoint_and_increasing_witness :
    ((MeshDataStore.addMeshes
          ([(List.replicate 1 (), [0]), (List.replicate 2 (), [0, 1, 0])]
            : List (List Unit × List Nat))
          MeshDataStore.initial).2).Pairwise
      (fun m1 m2 =>
        Disjoint (MeshDataStore.vertexRange m1) (MeshDataStore.vertexRange m2)
          ∧ Disjoint (MeshDataStore.indexRange m1) (MeshDataStore.indexRange m2)
          ∧ m1.first_vertex < m2.first_vertex ∧ m1.first_index < m2.first_index) :=
  c4_mesh_ranges_disjoint_and_increasing
    [(List.replicate 1 (), [0]), (List.replicate 2 (), [0, 1, 0])]
    (by decide) (by decide) (by decide)

namespace D3D12BindGroupBuilder

/-!
Embedding of `D3D12BindGroupBuilder` (d3d12_bind_group.cpp).  The builder is
constructed with a map of declared root-descriptor slots (name to
root-parameter index and descriptor type) and a map of descriptor-table
handles (root-parameter index to GPU descriptor handle).  `set_buffer`,
`set_image` and `set_image_array` record bindings; `build()` produces the 64
root parameters, with `ENSURE` assertions modelled as `Option` failure and the
`spdlog::warn` calls collected into a warning list.

The header declaring the member maps is not among the available sources, but
`build()` fixes their value types: `bound_buffers` is read through
`second->resource->GetGPUVirtualAddress()` (a single resource) and
`bound_images` through `second.size()` and `second[0]` (a vector of images).
`set_image_array` as written inserts its vector of image pointers into
`bound_buffers` (d3d12_bind_group.cpp line 99), so `bound_buffers` is
modelled as holding either payload; reading a GPU virtual address out of an
image-array payload through the buffer member access of `build()` is
ill-typed in the source and yields no address here.
-/

/-- Type of a declared root descriptor (d3d12_bind_group.hpp enum). -/
inductive RootDescriptorType
  | ConstantBuffer
  | ShaderResource
  | UnorderedAccess
deriving Repr, DecidableEq

/-- Declared root-descriptor slot: root-parameter index and descriptor type. -/
structure RootDescriptorDescription where
  idx : Nat
  type : RootDescriptorType
deriving Repr, DecidableEq

/-- A D3D12 buffer, reduced to the GPU virtual address of its resource. -/
structure D3D12Buffer where
  gpu_virtual_address : Nat
deriving Repr, DecidableEq

/-- A D3D12 image, reduced to the GPU virtual address of its resource. -/
structure D3D12Image where
  gpu_virtual_address : Nat
deriving Repr, DecidableEq

/-- Payload stored in the builder `bound_buffers` map: `set_buffer` inserts a
buffer pointer, while `set_image_array` as written inserts a vector of image
pointers into the same map. -/
inductive BoundResource
  | buffer (b : D3D12Buffer)
  | images (imgs : List D3D12Image)
deriving Repr, DecidableEq

/-- `std::unordered_map::find`, on the association-list model of the maps. -/
def findName {α : Type} (name : String) : List (String × α) → Option α
  | [] => none
  | (k, v) :: rest => if k = name then some v else findName name rest

/-- `std::unordered_map::insert_or_assign`. -/
def insertOrAssign {α : Type} (name : String) (v : α) :
    List (String × α) → List (String × α)
  | [] => [(name, v)]
  | (k, w) :: rest =>
    if k = name then (k, v) :: rest else (k, w) :: insertOrAssign name v rest

/-- Builder state: the declared slots given to the constructor and the
bindings recorded so far. -/
structure Builder where
  root_descriptor_descriptions : List (String × RootDescriptorDescription)
  descriptor_table_handles : List (Nat × Nat)
  bound_buffers : List (String × BoundResource)
  bound_images : List (String × List D3D12Image)
deriving Repr, DecidableEq

/-- `D3D12BindGroupBuilder::set_buffer(name, buffer)`. -/
def set_buffer (b : Builder) (name : String) (buf : D3D12Buffer) : Builder :=
  { b with bound_buffers := insertOrAssign name (BoundResource.buffer buf) b.bound_buffers }

/-- `D3D12BindGroupBuilder::set_image_array(name, images)`: the insert targets
`bound_buffers`, exactly as in the source (d3d12_bind_group.cpp line 99). -/
def set_image_array (b : Builder) (name : String) (imgs : List D3D12Image) : Builder :=
  { b with bound_buffers := insertOrAssign name (BoundResource.images imgs) b.bound_buffers }

/-- `D3D12BindGroupBuilder::set_image(name, image)`: forwards to
`set_image_array` with a single-element vector. -/
def set_image (b : Builder) (name : String) (img : D3D12Image) : Builder :=
  set_image_array b name [img]

/-- One root parameter of the built bind group: empty, a root descriptor
(with the GPU virtual address assigned by `build()`, if any), or a descriptor
table. -/
inductive RootParameter
  | empty
  | descriptor (type : RootDescriptorType) (address : Option Nat)
  | table (handle : Nat)
deriving Repr, DecidableEq

/-- The GPU virtual address `build()` obtains from a `bound_buffers` payload:
the source reads `second->resource->GetGPUVirtualAddress()`, which is only
meaningful for a buffer payload; an image-array payload stored by
`set_image_array` provides no buffer resource. -/
def boundResourceAddress : BoundResource → Option Nat
  | BoundResource.buffer buf => some buf.gpu_virtual_address
  | BoundResource.images _ => none

/-- The first loop of `build()`: store each descriptor-table handle at its
root-parameter index, with `ENSURE(idx < 64)` modelled as failure. -/
def applyTables : List RootParameter → List (Nat × Nat) → Option (List RootParameter)
  | params, [] => some params
  | params, (idx, handle) :: rest =>
    if idx < 64 then applyTables (params.set idx (RootParameter.table handle)) rest
    else none

/-- The second loop of `build()`: for every declared root-descriptor slot,
check `ENSURE(idx < 32)` and `ENSURE(slot still empty)`, mark the slot as a
descriptor of the declared type, and assign its address from `bound_buffers`
or `bound_images`; a slot found in neither map is left without an address and
its name is appended to the warning list. -/
def applyRootDescriptors (bb : List (String × BoundResource))
    (bi : List (String × List D3D12Image)) :
    List RootParameter → List (String × RootDescriptorDescription) → List String →
      Option (List RootParameter × List String)
  | params, [], warnings => some (params, warnings)
  | params, (name, desc) :: rest, warnings =>
    if desc.idx < 32 then
      if params.getD desc.idx RootParameter.empty = RootParameter.empty then
        match findName name bb with
        | some r =>
          applyRootDescriptors bb bi
            (params.set desc.idx (RootParameter.descriptor desc.type (boundResourceAddress r)))
            rest warnings
        | none =>
          match findName name bi with
          | some [img] =>
            applyRootDescriptors bb bi
              (params.set desc.idx
                (RootParameter.descriptor desc.type (some img.gpu_virtual_address)))
              rest warnings
          | some _ => none
          | none =>
            applyRootDescriptors bb bi
              (params.set desc.idx (RootParameter.descriptor desc.type none))
              rest (warnings ++ [name])
      else none
    else none

/-- `D3D12BindGroupBuilder::build()`: returns the 64 root parameters of the
bind group together with the list of no-resources-bound warnings, or `none`
when an `ENSURE` assertion fires. -/
def build (b : Builder) : Option (List RootParameter × List String) :=
  match applyTables (List.replicate 64 RootParameter.empty) b.descriptor_table_handles with
  | none => none
  | some params => applyRootDescriptors b.bound_buffers b.bound_images params
      b.root_descriptor_descriptions []

end D3D12BindGroupBuilder

namespace D3D12BindGroupBuilder

/-- A successful map lookup exhibits the stored entry. -/
theorem findName_mem {α : Type} (name : String) (v : α) :
    ∀ l : List (String × α), findName name l = some v → (name, v) ∈ l
  | [], h => by simp [findName] at h
  | (k, w) :: rest, h => by
    by_cases hk : k = name
    · rw [findName, if_pos hk] at h
      injection h with h2
      subst h2
      subst hk
      exact List.mem_cons_self _ _
    · rw [findName, if_neg hk] at h
      exact List.mem_cons_of_mem _ (findName_mem name v rest h)

/-- Reading a list at an index different from the one just written is
unchanged. -/
theorem getD_set_ne {α : Type} (l : List α) (i j : Nat) (v d : α) (h : i ≠ j) :
    (l.set i v).getD j d = l.getD j d := by
  rw [List.getD_eq_getElem?_getD, List.getD_eq_getElem?_getD, List.getElem?_set_ne h]

/-- Every position of a replicated list reads the replicated element. -/
theorem getD_replicate_self {α : Type} (n j : Nat) (d : α) :
    (List.replicate n d).getD j d = d := by
  rw [List.getD_eq_getElem?_getD]
  rcases Nat.lt_or_ge j n with h | h
  · rw [List.getElem?_eq_getElem (by simpa using h)]
    simp [List.getElem_replicate]
  · rw [List.getElem?_eq_none (by simpa using h)]
    rfl

/-- The descriptor-table loop of `build()` succeeds when every table index is
below 64, preserves the parameter-vector length, and leaves all other indices
unchanged. -/
theorem applyTables_spec :
    ∀ (tables : List (Nat × Nat)) (params : List RootParameter),
      (∀ p ∈ tables, p.1 < 64) →
      ∃ params1, applyTables params tables = some params1
        ∧ params1.length = params.length
        ∧ ∀ j, (∀ p ∈ tables, p.1 ≠ j) →
            params1.getD j RootParameter.empty = params.getD j RootParameter.empty
  | [], params, _ => ⟨params, rfl, rfl, fun _ _ => rfl⟩
  | (idx, handle) :: rest, params, hlt => by
    have hrec := applyTables_spec rest (params.set idx (RootParameter.table handle))
      (fun p hp => hlt p (List.mem_cons_of_mem _ hp))
    obtain ⟨params1, heq, hlen, hother⟩ := hrec
    refine ⟨params1, ?_, ?_, ?_⟩
    · show applyTables params ((idx, handle) :: rest) = some params1
      unfold applyTables
      rw [if_pos (hlt (idx, handle) (List.mem_cons_self _ _))]
      exact heq
    · rw [hlen, List.length_set]
    · intro j hj
      rw [hother j (fun p hp => hj p (List.mem_cons_of_mem _ hp))]
      exact getD_set_ne _ _ _ _ _ (hj (idx, handle) (List.mem_cons_self _ _))

/-- The root-descriptor loop of `build()` succeeds when every declared index
is below 32, refers to a still-empty parameter, indices are pairwise distinct
and every bound image array is a singleton; the warnings appended are exactly
the names of the declared slots bound in neither map, in declaration order. -/
theorem applyRootDescriptors_spec (bb : List (String × BoundResource))
    (bi : List (String × List D3D12Image))
    (hsingle : ∀ p ∈ bi, ∃ img, p.2 = [img]) :
    ∀ (descs : List (String × RootDescriptorDescription)) (params : List RootParameter)
      (warnings : List String),
      (∀ p ∈ descs, p.2.idx < 32) →
      (∀ p ∈ descs, params.getD p.2.idx RootParameter.empty = RootParameter.empty) →
      List.Pairwise (fun p q => p.2.idx ≠ q.2.idx) descs →
      ∃ params2, applyRootDescriptors bb bi params descs warnings
        = some (params2, warnings ++ (descs.filter
            (fun p => (findName p.1 bb).isNone && (findName p.1 bi).isNone)).map Prod.fst)
  | [], params, warnings, _, _, _ => ⟨params, by simp [applyRootDescriptors]⟩
  | (name, desc) :: rest, params, warnings, hlt, hempty, hpair => by
    have hheadlt : desc.idx < 32 := hlt (name, desc) (List.mem_cons_self _ _)
    have hheadempty : params.getD desc.idx RootParameter.empty = RootParameter.empty :=
      hempty (name, desc) (List.mem_cons_self _ _)
    have hrestlt : ∀ p ∈ rest, p.2.idx < 32 :=
      fun p hp => hlt p (List.mem_cons_of_mem _ hp)
    have hrestpair : List.Pairwise (fun p q => p.2.idx ≠ q.2.idx) rest :=
      (List.pairwise_cons.mp hpair).2
    have hheadne : ∀ p ∈ rest, desc.idx ≠ p.2.idx :=
      fun p hp => (List.pairwise_cons.mp hpair).1 p hp
    have hrestempty : ∀ (v : RootParameter), ∀ p ∈ rest,
        (params.set desc.idx v).getD p.2.idx RootParameter.empty = RootParameter.empty :=
      fun v p hp => by
        rw [getD_set_ne _ _ _ _ _ (hheadne p hp)]
        exact hempty p (List.mem_cons_of_mem _ hp)
    unfold applyRootDescriptors
    rw [if_pos hheadlt, if_pos hheadempty]
    rcases hfb : findName name bb with _ | r
    · rcases hfi : findName name bi with _ | imgs
      · -- bound in neither map: warning path
        obtain ⟨params2, heq⟩ := applyRootDescriptors_spec bb bi hsingle rest
          (params.set desc.idx (RootParameter.descriptor desc.type none))
          (warnings ++ [name]) hrestlt
          (hrestempty _) hrestpair
        refine ⟨params2, ?_⟩
        have hfilter : ((name, desc) :: rest).filter
            (fun p => (findName p.1 bb).isNone && (findName p.1 bi).isNone)
            = (name, desc) :: rest.filter
              (fun p => (findName p.1 bb).isNone && (findName p.1 bi).isNone) := by
          rw [List.filter_cons_of_pos]
          simp [hfb, hfi]
        rw [hfilter]
        simp only [hfb, hfi, List.map_cons]
        rw [heq]
        simp
      · -- bound as an image array (through bound_images)
        obtain ⟨img, himg⟩ := hsingle (name, imgs) (findName_mem name imgs bi hfi)
        subst himg
        obtain ⟨params2, heq⟩ := applyRootDescriptors_spec bb bi hsingle rest
          (params.set desc.idx (RootParameter.descriptor desc.type (some img.gpu_virtual_address)))
          warnings hrestlt (hrestempty _) hrestpair
        refine ⟨params2, ?_⟩
        have hfilter : ((name, desc) :: rest).filter
            (fun p => (findName p.1 bb).isNone && (findName p.1 bi).isNone)
            = rest.filter
              (fun p => (findName p.1 bb).isNone && (findName p.1 bi).isNone) := by
          rw [List.filter_cons_of_neg]
          simp [hfb, hfi]
        rw [hfilter]
        simp only [hfb, hfi]
        exact heq
    · -- bound through bound_buffers
      obtain ⟨params2, heq⟩ := applyRootDescriptors_spec bb bi hsingle rest
        (params.set desc.idx (RootParameter.descriptor desc.type (boundResourceAddress r)))
        warnings hrestlt (hrestempty _) hrestpair
      refine ⟨params2, ?_⟩
      have hfilter : ((name, desc) :: rest).filter
          (fun p => (findName p.1 bb).isNone && (findName p.1 bi).isNone)
          = rest.filter
            (fun p => (findName p.1 bb).isNone && (findName p.1 bi).isNone) := by
        rw [List.filter_cons_of_neg]
        simp [hfb]
      rw [hfilter]
      simp only [hfb]
      exact heq

end D3D12BindGroupBuilder

/-- C6, evaluation of the code at the failing input: a builder with one
declared root-descriptor slot `"camera_buffer"` at index 0 of shader-resource
type, after `set_image("camera_buffer", image-with-address-42)`.  As written,
`set_image_array` inserts the image binding into the `bound_buffers` map
(d3d12_bind_group.cpp line 99), so `bound_images` stays empty, and `build()`
neither assigns the image GPU virtual address to the root descriptor payload
nor follows the documented image path; the payload carries no address (the
buffer-typed read of an image-array payload is ill-typed in the source), and
not even the no-resources-bound warning fires. -/
theorem c6_set_image_on_root_descriptor_slot_yields_no_address :
    (D3D12BindGroupBuilder.set_image
        ⟨[("camera_buffer",
            ⟨0, D3D12BindGroupBuilder.RootDescriptorType.ShaderResource⟩)], [], [], []⟩
        "camera_buffer" ⟨42⟩).bound_images = []
      ∧ ((D3D12BindGroupBuilder.build
            (D3D12BindGroupBuilder.set_image
              ⟨[("camera_buffer",
                  ⟨0, D3D12BindGroupBuilder.RootDescriptorType.ShaderResource⟩)], [], [], []⟩
              "camera_buffer" ⟨42⟩)).map
          (fun r => (r.1.getD 0 D3D12BindGroupBuilder.RootParameter.empty, r.2)))
        = some
            (D3D12BindGroupBuilder.RootParameter.descriptor
              D3D12BindGroupBuilder.RootDescriptorType.ShaderResource none, []) := by
  constructor
  · rfl
  · rfl

/-- C7: building a bind group whose declared slots satisfy the `ENSURE`
bounds (every descriptor-table index below 64, every root-descriptor index
below 32, all root-parameter indices distinct), whose bound image arrays are
singletons, and in which exactly one declared shader-resource slot has no
resource bound, succeeds — `build()` returns a bind group rather than
failing — and logs exactly one no-resources-bound warning, for the unbound
slot. -/
theorem c7_build_with_one_unbound_slot_succeeds_with_one_warning
    (b : D3D12BindGroupBuilder.Builder)
    (htab : ∀ p ∈ b.descriptor_table_handles, p.1 < 64)
    (hidx : ∀ p ∈ b.root_descriptor_descriptions, p.2.idx < 32)
    (hdisj : ∀ p ∈ b.descriptor_table_handles,
      ∀ q ∈ b.root_descriptor_descriptions, p.1 ≠ q.2.idx)
    (hnodup : List.Pairwise (fun p q => p.2.idx ≠ q.2.idx) b.root_descriptor_descriptions)
    (hsingle : ∀ p ∈ b.bound_images, ∃ img, p.2 = [img])
    (hone : (b.root_descriptor_descriptions.filter
        (fun p => (D3D12BindGroupBuilder.findName p.1 b.bound_buffers).isNone
          && (D3D12BindGroupBuilder.findName p.1 b.bound_images).isNone)).map Prod.fst
      = [(b.root_descriptor_descriptions.filter
          (fun p => (D3D12BindGroupBuilder.findName p.1 b.bound_buffers).isNone
            && (D3D12BindGroupBuilder.findName p.1 b.bound_images).isNone)).map
            Prod.fst |>.getD 0 ""]) :
    ∃ r, D3D12BindGroupBuilder.build b = some r ∧ r.2.length = 1 := by
  obtain ⟨params1, htabeq, hlen, hother⟩ :=
    D3D12BindGroupBuilder.applyTables_spec b.descriptor_table_handles
      (List.replicate 64 D3D12BindGroupBuilder.RootParameter.empty) htab
  have hempty1 : ∀ p ∈ b.root_descriptor_descriptions,
      params1.getD p.2.idx D3D12BindGroupBuilder.RootParameter.empty
        = D3D12BindGroupBuilder.RootParameter.empty := by
    intro p hp
    rw [hother p.2.idx (fun q hq => hdisj q hq p hp)]
    exact D3D12BindGroupBuilder.getD_replicate_self 64 p.2.idx _
  obtain ⟨params2, heq⟩ :=
    D3D12BindGroupBuilder.applyRootDescriptors_spec b.bound_buffers b.bound_images hsingle
      b.root_descriptor_descriptions params1 [] hidx hempty1 hnodup
  refine ⟨(params2, [] ++ (b.root_descriptor_descriptions.filter
      (fun p => (D3D12BindGroupBuilder.findName p.1 b.bound_buffers).isNone
        && (D3D12BindGroupBuilder.findName p.1 b.bound_images).isNone)).map Prod.fst), ?_, ?_⟩
  · unfold D3D12BindGroupBuilder.build
    rw [htabeq]
    exact heq
  · simp only [List.nil_append]
    rw [hone]
    rfl

/-- Witness for the C7 theorem: a builder with a descriptor table at root
index 0, a declared shader-resource root descriptor `"shadow_map"` at index 1
with nothing bound to it, and a bound constant buffer `"camera"` at index 2.
All hypotheses hold and the build succeeds with exactly one warning. -/
theorem c7_build_with_one_unbound_slot_succeeds_with_one_warning_witness :
    ∃ r, D3D12BindGroupBuilder.build
        ⟨[("shadow_map", ⟨1, D3D12BindGroupBuilder.RootDescriptorType.ShaderResource⟩),
          ("camera", ⟨2, D3D12BindGroupBuilder.RootDescriptorType.ConstantBuffer⟩)],
         [(0, 7)],
         [("camera", D3D12BindGroupBuilder.BoundResource.buffer ⟨4096⟩)],
         []⟩
      = some r ∧ r.2.length = 1 :=
  c7_build_with_one_unbound_slot_succeeds_with_one_warning
    ⟨[("shadow_map", ⟨1, D3D12BindGroupBuilder.RootDescriptorType.ShaderResource⟩),
      ("camera", ⟨2, D3D12BindGroupBuilder.RootDescriptorType.ConstantBuffer⟩)],
     [(0, 7)],
     [("camera", D3D12BindGroupBuilder.BoundResource.buffer ⟨4096⟩)],
     []⟩
    (by decide) (by decide) (by decide) (by decide) (by simp) (by decide)

namespace D3D12RenderDevice

/-!
Embedding of the resource-creation operations of `D3D12RenderDevice`
(d3d12_render_device.cpp).  The outcome of the GPU allocator call
(`device_allocator->CreateResource`) is an environment input, passed as an
`AllocResult` parameter; `spdlog` calls are collected into a log list.
-/

/-- Buffer usage categories (`rhi::BufferUsage`). -/
inductive BufferUsage
  | StagingBuffer
  | ConstantBuffer
  | IndirectCommands
  | UnorderedAccess
  | IndexBuffer
  | VertexBuffer
deriving Repr, DecidableEq

/-- Image usage categories (`rhi::ImageUsage`). -/
inductive ImageUsage
  | RenderTarget
  | SampledImage
  | DepthStencil
  | UnorderedAccess
deriving Repr, DecidableEq

/-- D3D12 heap classes the creation switch selects between. -/
inductive HeapType
  | Upload
  | Default
deriving Repr, DecidableEq

/-- The D3D12 resource states the creation switches select between. -/
inductive ResourceState
  | Common
  | GenericRead
  | RenderTarget
  | ShaderResource
  | DepthWrite
  | UnorderedAccess
deriving Repr, DecidableEq

/-- `rhi::BufferCreateInfo`. -/
structure BufferCreateInfo where
  name : String
  size : Nat
  usage : BufferUsage
deriving Repr, DecidableEq

/-- `rhi::ImageCreateInfo`, reduced to the fields the creation path reads. -/
structure ImageCreateInfo where
  name : String
  usage : ImageUsage
  width : Nat
  height : Nat
deriving Repr, DecidableEq

/-- The created `D3D12Buffer`, reduced to the fields the creation path sets. -/
structure D3D12Buffer where
  size : Nat
  heap : HeapType
  initial_state : ResourceState
  mapped : Bool
  name : String
deriving Repr, DecidableEq

/-- The created `D3D12Image`, reduced to the fields the creation path sets. -/
structure D3D12Image where
  heap : HeapType
  initial_state : ResourceState
  name : String
deriving Repr, DecidableEq

/-- Severity of a log line. -/
inductive LogLevel
  | error
  | warn
deriving Repr, DecidableEq

/-- A log line. -/
structure LogMsg where
  level : LogLevel
  text : String
deriving Repr, DecidableEq

/-- Outcome of a `device_allocator->CreateResource` call, an environment
input. -/
inductive AllocResult
  | success
  | failure
deriving Repr, DecidableEq

/-- `D3D12RenderDevice::create_buffer(create_info)`: select heap class,
initial state and mapping from the usage switch; on allocation failure log an
error and return the empty result; on success return the buffer (mapped when
requested). -/
def create_buffer (info : BufferCreateInfo) (alloc : AllocResult) :
    Option D3D12Buffer × List LogMsg :=
  let hsm : HeapType × ResourceState × Bool :=
    match info.usage with
    | BufferUsage.StagingBuffer => (HeapType.Upload, ResourceState.GenericRead, true)
    | BufferUsage.ConstantBuffer => (HeapType.Upload, ResourceState.GenericRead, true)
    | BufferUsage.IndirectCommands => (HeapType.Default, ResourceState.Common, false)
    | BufferUsage.UnorderedAccess => (HeapType.Default, ResourceState.Common, false)
    | BufferUsage.IndexBuffer => (HeapType.Default, ResourceState.Common, false)
    | BufferUsage.VertexBuffer => (HeapType.Default, ResourceState.Common, false)
  match alloc with
  | AllocResult.failure =>
    (none, [⟨LogLevel.error, "Could not create buffer"⟩])
  | AllocResult.success =>
    (some ⟨info.size, hsm.1, hsm.2.1, hsm.2.2, info.name⟩, [])

/-- `D3D12RenderDevice::create_image(create_info)`: images always use the
default heap; the initial state comes from the usage switch (the common-state
fallback of the source lambda is unreachable for in-range enum values); on
allocation failure log an error and return the empty result. -/
def create_image (info : ImageCreateInfo) (alloc : AllocResult) :
    Option D3D12Image × List LogMsg :=
  let initial_state :=
    match info.usage with
    | ImageUsage.RenderTarget => ResourceState.RenderTarget
    | ImageUsage.SampledImage => ResourceState.ShaderResource
    | ImageUsage.DepthStencil => ResourceState.DepthWrite
    | ImageUsage.UnorderedAccess => ResourceState.UnorderedAccess
  match alloc with
  | AllocResult.failure =>
    (none, [⟨LogLevel.error, "Could not create image"⟩])
  | AllocResult.success =>
    (some ⟨HeapType.Default, initial_state, info.name⟩, [])

/-- `rhi::D3D12StagingBuffer`, reduced to its byte size (a default-constructed
one has size 0). -/
structure D3D12StagingBuffer where
  size : Nat
deriving Repr, DecidableEq

/-- `D3D12RenderDevice::create_staging_buffer(num_bytes)`: on allocation
failure the source logs and returns a default-constructed (size 0) value;
on success a buffer of exactly `num_bytes` bytes. -/
def create_staging_buffer (num_bytes : Nat) (alloc : AllocResult) : D3D12StagingBuffer :=
  match alloc with
  | AllocResult.failure => ⟨0⟩
  | AllocResult.success => ⟨num_bytes⟩

/-- One iteration of the best-fit scan of
`D3D12RenderDevice::get_staging_buffer`: a pooled buffer is suitable when its
size is at least `num_bytes`; the first suitable index replaces the
`pool.length` sentinel, and a later suitable index replaces the current best
only when its buffer is strictly smaller. -/
def best_fit_step (pool : List D3D12StagingBuffer) (num_bytes best i : Nat) : Nat :=
  if num_bytes ≤ (pool.getD i ⟨0⟩).size then
    if pool.length ≤ best then i
    else if (pool.getD i ⟨0⟩).size < (pool.getD best ⟨0⟩).size then i
    else best
  else best

/-- The best-fit scan of `D3D12RenderDevice::get_staging_buffer`: walk the
pool left to right, starting from the `pool.length` sentinel. -/
def best_fit_idx (pool : List D3D12StagingBuffer) (num_bytes : Nat) : Nat :=
  (List.range pool.length).foldl (best_fit_step pool num_bytes) pool.length

/-- `D3D12RenderDevice::get_staging_buffer(num_bytes)`: return (and remove
from the pool) the best-fit pooled buffer when one exists, otherwise create a
new staging buffer of exactly `num_bytes` bytes. -/
def get_staging_buffer (num_bytes : Nat) (pool : List D3D12StagingBuffer)
    (alloc : AllocResult) : D3D12StagingBuffer × List D3D12StagingBuffer :=
  let best := best_fit_idx pool num_bytes
  if best < pool.length then
    (pool.getD best ⟨0⟩, pool.eraseIdx best)
  else
    (create_staging_buffer num_bytes alloc, pool)

/-- A command-list-done fence object, reduced to an identifier. -/
structure Fence where
  id : Nat
deriving Repr, DecidableEq

/-- `D3D12RenderDevice::get_next_command_list_done_fence()`: when the recycled
pool `command_list_done_fences` is non-empty the source reads
`*command_list_done_fences.end()` — the element one past the last, i.e. the
element at index `size()`, which does not exist (modelled by `getElem?`
returning `none`) — and then pops the last element; when the pool is empty a
fresh fence is created (`fresh`, an environment input). -/
def get_next_command_list_done_fence (pool : List Fence) (fresh : Fence) :
    Option Fence × List Fence :=
  if pool.isEmpty = false then
    (pool[pool.length]?, pool.dropLast)
  else
    (some fresh, pool)

end D3D12RenderDevice

namespace D3D12RenderDevice

/-- Invariant of the best-fit scan after the first `k` loop iterations:
either no suitable buffer was seen and the sentinel remains, or the current
best index points at a suitable buffer of minimal size among the first `k`. -/
theorem best_fit_scan_spec (pool : List D3D12StagingBuffer) (num_bytes : Nat) :
    ∀ k : Nat, k ≤ pool.length →
      ((List.range k).foldl (best_fit_step pool num_bytes) pool.length = pool.length
          ∧ ∀ i < k, ¬ num_bytes ≤ (pool.getD i ⟨0⟩).size)
      ∨ ((List.range k).foldl (best_fit_step pool num_bytes) pool.length < k
          ∧ num_bytes ≤ (pool.getD ((List.range k).foldl
              (best_fit_step pool num_bytes) pool.length) ⟨0⟩).size
          ∧ ∀ i < k, num_bytes ≤ (pool.getD i ⟨0⟩).size →
              (pool.getD ((List.range k).foldl
                  (best_fit_step pool num_bytes) pool.length) ⟨0⟩).size
                ≤ (pool.getD i ⟨0⟩).size)
  | 0, _ => Or.inl ⟨rfl, by omega⟩
  | k + 1, hklen => by
    have hfold : (List.range (k + 1)).foldl (best_fit_step pool num_bytes) pool.length
        = best_fit_step pool num_bytes
            ((List.range k).foldl (best_fit_step pool num_bytes) pool.length) k := by
      rw [List.range_succ, List.foldl_append]
      rfl
    rcases best_fit_scan_spec pool num_bytes k (by omega) with ⟨hb, hnone⟩ | ⟨hlt, hsuit, hmin⟩
    · by_cases hk : num_bytes ≤ (pool.getD k ⟨0⟩).size
      · right
        rw [hfold, hb]
        unfold best_fit_step
        rw [if_pos hk, if_pos (le_refl _)]
        refine ⟨by omega, hk, ?_⟩
        intro i hi hisuit
        rcases Nat.lt_or_ge i k with h | h
        · exact absurd hisuit (hnone i h)
        · have : i = k := by omega
          subst this
          exact le_refl _
      · left
        rw [hfold, hb]
        unfold best_fit_step
        rw [if_neg hk]
        refine ⟨rfl, ?_⟩
        intro i hi
        rcases Nat.lt_or_ge i k with h | h
        · exact hnone i h
        · have : i = k := by omega
          subst this
          exact hk
    · right
      set b := (List.range k).foldl (best_fit_step pool num_bytes) pool.length with hbdef
      by_cases hk : num_bytes ≤ (pool.getD k ⟨0⟩).size
      · rw [hfold]
        unfold best_fit_step
        rw [if_pos hk, if_neg (by omega)]
        by_cases hsm : (pool.getD k ⟨0⟩).size < (pool.getD b ⟨0⟩).size
        · rw [if_pos hsm]
          refine ⟨by omega, hk, ?_⟩
          intro i hi hisuit
          rcases Nat.lt_or_ge i k with h | h
          · exact le_trans (le_of_lt hsm) (hmin i h hisuit)
          · have : i = k := by omega
            subst this
            exact le_refl _
        · rw [if_neg hsm]
          refine ⟨by omega, hsuit, ?_⟩
          intro i hi hisuit
          rcases Nat.lt_or_ge i k with h | h
          · exact hmin i h hisuit
          · have : i = k := by omega
            subst this
            omega
      · rw [hfold]
        unfold best_fit_step
        rw [if_neg hk]
        refine ⟨by omega, hsuit, ?_⟩
        intro i hi hisuit
        rcases Nat.lt_or_ge i k with h | h
        · exact hmin i h hisuit
        · have : i = k := by omega
          subst this
          exact absurd hisuit hk

end D3D12RenderDevice

/-- C9: for every buffer or image creation request whose underlying
allocation fails, `create_buffer` and `create_image` return an empty result
(`none` — no silent default resource is substituted) together with exactly one
logged error; the embedding is a total function, so no exception crosses the
call. -/
theorem c9_creation_failure_empty_result_and_error_log
    (binfo : D3D12RenderDevice.BufferCreateInfo)
    (iinfo : D3D12RenderDevice.ImageCreateInfo) :
    D3D12RenderDevice.create_buffer binfo D3D12RenderDevice.AllocResult.failure
        = (none, [⟨D3D12RenderDevice.LogLevel.error, "Could not create buffer"⟩])
      ∧ D3D12RenderDevice.create_image iinfo D3D12RenderDevice.AllocResult.failure
        = (none, [⟨D3D12RenderDevice.LogLevel.error, "Could not create image"⟩]) :=
  ⟨rfl, rfl⟩

/-- C10: for every call `get_staging_buffer(num_bytes)`: if some pooled
staging buffer has size at least `num_bytes`, a smallest such buffer is
removed from the pool and returned — in particular every buffer returned from
the pool has size at least `num_bytes`; otherwise (allocation succeeding) a
newly created staging buffer of exactly `num_bytes` bytes is returned and the
pool is unchanged. -/
theorem c10_get_staging_buffer_returns_smallest_sufficient
    (pool : List D3D12RenderDevice.D3D12StagingBuffer) (num_bytes : Nat)
    (alloc : D3D12RenderDevice.AllocResult) :
    ((∃ buf ∈ pool, num_bytes ≤ buf.size) →
      ∃ i < pool.length,
        (D3D12RenderDevice.get_staging_buffer num_bytes pool alloc).1 = pool.getD i ⟨0⟩
          ∧ (D3D12RenderDevice.get_staging_buffer num_bytes pool alloc).2 = pool.eraseIdx i
          ∧ num_bytes ≤ (D3D12RenderDevice.get_staging_buffer num_bytes pool alloc).1.size
          ∧ ∀ buf ∈ pool, num_bytes ≤ buf.size →
              (D3D12RenderDevice.get_staging_buffer num_bytes pool alloc).1.size ≤ buf.size)
    ∧ ((¬ ∃ buf ∈ pool, num_bytes ≤ buf.size) →
        alloc = D3D12RenderDevice.AllocResult.success →
        (D3D12RenderDevice.get_staging_buffer num_bytes pool alloc).1
            = ⟨num_bytes⟩
          ∧ (D3D12RenderDevice.get_staging_buffer num_bytes pool alloc).2 = pool) := by
  constructor
  · rintro ⟨buf, hmem, hsz⟩
    rcases D3D12RenderDevice.best_fit_scan_spec pool num_bytes pool.length (le_refl _) with
      ⟨_, hnone⟩ | ⟨hlt, hsuit, hmin⟩
    · exfalso
      obtain ⟨j, hj, hjeq⟩ := List.mem_iff_getElem.mp hmem
      refine hnone j hj ?_
      rw [List.getD_eq_getElem pool ⟨0⟩ hj, hjeq]
      exact hsz
    · have hlt2 : D3D12RenderDevice.best_fit_idx pool num_bytes < pool.length := hlt
      have hred : D3D12RenderDevice.get_staging_buffer num_bytes pool alloc
          = (pool.getD (D3D12RenderDevice.best_fit_idx pool num_bytes) ⟨0⟩,
             pool.eraseIdx (D3D12RenderDevice.best_fit_idx pool num_bytes)) := by
        simp only [D3D12RenderDevice.get_staging_buffer]
        rw [if_pos hlt2]
      refine ⟨D3D12RenderDevice.best_fit_idx pool num_bytes, hlt2, ?_, ?_, ?_, ?_⟩
      · rw [hred]
      · rw [hred]
      · rw [hred]
        exact hsuit
      · intro b hb hbs
        rw [hred]
        obtain ⟨j, hj, hjeq⟩ := List.mem_iff_getElem.mp hb
        have := hmin j hj (by
          rw [List.getD_eq_getElem pool ⟨0⟩ hj, hjeq]
          exact hbs)
        rw [List.getD_eq_getElem pool ⟨0⟩ hj, hjeq] at this
        exact this
  · intro hnot halloc
    rcases D3D12RenderDevice.best_fit_scan_spec pool num_bytes pool.length (le_refl _) with
      ⟨hb, _⟩ | ⟨hlt, hsuit, _⟩
    · have hge : ¬ D3D12RenderDevice.best_fit_idx pool num_bytes < pool.length := by
        unfold D3D12RenderDevice.best_fit_idx
        omega
      have hred : D3D12RenderDevice.get_staging_buffer num_bytes pool alloc
          = (D3D12RenderDevice.create_staging_buffer num_bytes alloc, pool) := by
        simp only [D3D12RenderDevice.get_staging_buffer]
        rw [if_neg hge]
      rw [hred, halloc]
      exact ⟨rfl, rfl⟩
    · exfalso
      have hlt2 : D3D12RenderDevice.best_fit_idx pool num_bytes < pool.length := hlt
      refine hnot ⟨pool.getD (D3D12RenderDevice.best_fit_idx pool num_bytes) ⟨0⟩, ?_, hsuit⟩
      rw [List.getD_eq_getElem pool ⟨0⟩ hlt2]
      exact List.getElem_mem hlt2

/-- Witness for C10 at the pool `[8, 4, 16]` (sizes) and `num_bytes = 3`: the
suitable-buffer branch applies and the scan selects the size-4 buffer at
index 1. -/
theorem c10_get_staging_buffer_returns_smallest_sufficient_witness :
    ∃ i < ([⟨8⟩, ⟨4⟩, ⟨16⟩] : List D3D12RenderDevice.D3D12StagingBuffer).length,
      (D3D12RenderDevice.get_staging_buffer 3 [⟨8⟩, ⟨4⟩, ⟨16⟩]
            D3D12RenderDevice.AllocResult.success).1
          = ([⟨8⟩, ⟨4⟩, ⟨16⟩] : List D3D12RenderDevice.D3D12StagingBuffer).getD i ⟨0⟩
        ∧ (D3D12RenderDevice.get_staging_buffer 3 [⟨8⟩, ⟨4⟩, ⟨16⟩]
              D3D12RenderDevice.AllocResult.success).2
            = ([⟨8⟩, ⟨4⟩, ⟨16⟩] : List D3D12RenderDevice.D3D12StagingBuffer).eraseIdx i
        ∧ 3 ≤ (D3D12RenderDevice.get_staging_buffer 3 [⟨8⟩, ⟨4⟩, ⟨16⟩]
            D3D12RenderDevice.AllocResult.success).1.size
        ∧ ∀ buf ∈ ([⟨8⟩, ⟨4⟩, ⟨16⟩] : List D3D12RenderDevice.D3D12StagingBuffer),
            3 ≤ buf.size →
              (D3D12RenderDevice.get_staging_buffer 3 [⟨8⟩, ⟨4⟩, ⟨16⟩]
                  D3D12RenderDevice.AllocResult.success).1.size ≤ buf.size :=
  (c10_get_staging_buffer_returns_smallest_sufficient [⟨8⟩, ⟨4⟩, ⟨16⟩] 3
      D3D12RenderDevice.AllocResult.success).1 (by decide)

/-- C8, evaluation of the code at the failing input: with one recycled fence
in the pool, `get_next_command_list_done_fence` takes the non-empty branch and
reads `*command_list_done_fences.end()` — the element at index `size()` (= 1),
one past the last valid index — so the access is out of bounds (`none`): it
does not return a valid element of the pool. -/
theorem c8_recycled_fence_pool_access_out_of_bounds :
    (D3D12RenderDevice.get_next_command_list_done_fence [⟨5⟩] ⟨9⟩).1 = none
      ∧ ([⟨5⟩] : List D3D12RenderDevice.Fence).length = 1
      ∧ (D3D12RenderDevice.get_next_command_list_done_fence [⟨5⟩] ⟨9⟩).2 = [] := by
  refine ⟨?_, rfl, rfl⟩
  rfl

namespace CommandListTracking

/-!
Embedding of the command-list completion pipeline of `D3D12RenderDevice`
(d3d12_render_device.cpp): `submit_command_list` executes the list, signals a
fence with `CPU_FENCE_SIGNALED` and pushes the (fence, list) pair onto the
mutex-guarded FIFO `in_flight_command_lists`; the background worker
`wait_for_command_lists` pops the front pair, calls `SetEventOnCompletion` and
`WaitForSingleObject(event, 2000)` on it, and then pushes the list onto the
mutex-guarded FIFO `done_command_lists`; the drain loop at the top of
`begin_frame` pops every done list in order and runs its completion
callbacks.

Command lists are identified by submission ids.  The mutexes serialize every
access, so the concurrent system is modelled as an interleaving of three
atomic steps.  `WaitForSingleObject` with a 2000 ms bound returns either
because the fence reached `CPU_FENCE_SIGNALED` or because the timeout
expired; the Boolean parameter of the worker step records which happened —
the worker body then pushes the popped list to the done queue in both cases,
exactly as the source does (the wait result is never inspected).
-/

/-- State of the tracking pipeline. -/
structure TrackState where
  in_flight : List Nat
  done : List Nat
  executed : List Nat
  observations : List (Nat × Bool)
deriving Repr, DecidableEq

/-- Device start-up: all queues empty, no callbacks run. -/
def initial : TrackState := ⟨[], [], [], []⟩

/-- The three serialized steps of the pipeline. -/
inductive Step
  | submit (id : Nat)
  | workerIteration (signaled : Bool)
  | beginFrameDrain
deriving Repr, DecidableEq

/-- One atomic step: `submit` enqueues on the in-flight FIFO;
`workerIteration` pops the front in-flight pair (when any), records whether
the bounded fence wait observed the signal (`signaled`) or timed out, and
pushes the list to the done FIFO unconditionally; `beginFrameDrain` runs the
completion callbacks of every done list in FIFO order. -/
def step : TrackState → Step → TrackState
  | s, Step.submit id => { s with in_flight := s.in_flight ++ [id] }
  | s, Step.workerIteration signaled =>
    match s.in_flight with
    | [] => s
    | id :: rest =>
      { s with
        in_flight := rest
        observations := s.observations ++ [(id, signaled)]
        done := s.done ++ [id] }
  | s, Step.beginFrameDrain =>
    { s with done := [], executed := s.executed ++ s.done }

/-- A run of the pipeline from device start-up. -/
def run (steps : List Step) : TrackState := steps.foldl step initial

end CommandListTracking

/-- C1, evaluation of the code at the failing trace: one command list is
submitted, the GPU never signals its fence, the worker's bounded wait times
out (`signaled = false`), and the next `begin_frame` drains the done queue.
The completion callbacks of list 0 run (exactly once, in submission order)
even though the only wait the background worker performed on its fence timed
out without ever observing the fence signaled — contradicting the claim that
callbacks never run before the worker has observed the fence signaled. -/
theorem c1_callback_runs_after_timeout_without_signal :
    (CommandListTracking.run
        [CommandListTracking.Step.submit 0,
         CommandListTracking.Step.workerIteration false,
         CommandListTracking.Step.beginFrameDrain]).executed = [0]
      ∧ (CommandListTracking.run
          [CommandListTracking.Step.submit 0,
           CommandListTracking.Step.workerIteration false,
           CommandListTracking.Step.beginFrameDrain]).observations = [(0, false)] := by
  constructor
  · rfl
  · rfl

namespace FrameSync

/-!
Embedding of the frame-in-flight synchronization of `D3D12RenderDevice`
(d3d12_render_device.cpp): each of the `num_frames` swapchain slots has a
frame fence and a stored `frame_fence_values` entry.  `begin_frame` calls
`wait_for_frame(cur)` — which blocks until the slot fence completed value
reaches `frame_fence_values[cur]` — then increments `frame_fence_values[cur]`
and records+submits the swapchain-transition command list.  `end_frame`
signals the slot fence with the (incremented) stored value and presents,
advancing the backbuffer index cyclically.

Blocking is modelled by partiality: `begin_frame` returns `none` while the
fence has not reached the awaited value; the GPU raises a fence completed
value only up to what has been signaled on the queue (`gpu_complete`, whose
per-frame argument is an environment input).  `frames_completed` counts
finished frames, and `last_signal_frame` is a history variable recording, per
slot, the number of the frame whose `end_frame` most recently signaled that
slot fence; the source keeps no such fields, they only name points of the
execution so the temporal claim can be stated.  The drain of done command
lists at the top of `begin_frame` is modelled in `CommandListTracking`.
-/

/-- Synchronization state of the device. -/
structure DeviceState where
  num_frames : Nat
  frame_fence_values : List Nat
  signaled : List Nat
  completed : List Nat
  last_signal_frame : List (Option Nat)
  cur_swapchain_idx : Nat
  transitions_submitted : Nat
  frames_completed : Nat
deriving Repr, DecidableEq

/-- Device creation with `num_frames = nf`: every fence is created at value 0
and every stored frame fence value starts at 0. -/
def initDevice (nf : Nat) : DeviceState :=
  ⟨nf, List.replicate nf 0, List.replicate nf 0, List.replicate nf 0,
   List.replicate nf none, 0, 0, 0⟩

/-- `D3D12RenderDevice::begin_frame`: wait for the current slot (blocking —
`none` — while the slot fence completed value is below the stored frame fence
value), then increment the stored value and record+submit the swapchain
transition command list. -/
def begin_frame (s : DeviceState) : Option DeviceState :=
  let i := s.cur_swapchain_idx
  if s.frame_fence_values.getD i 0 ≤ s.completed.getD i 0 then
    some { s with
      frame_fence_values := s.frame_fence_values.set i (s.frame_fence_values.getD i 0 + 1),
      transitions_submitted := s.transitions_submitted + 1 }
  else none

/-- `D3D12RenderDevice::end_frame`: signal the slot fence with the stored
frame fence value and present (the flip-discard swapchain advances the
backbuffer index cyclically). -/
def end_frame (s : DeviceState) : DeviceState :=
  let i := s.cur_swapchain_idx
  { s with
    signaled := s.signaled.set i (s.frame_fence_values.getD i 0),
    last_signal_frame := s.last_signal_frame.set i (some s.frames_completed),
    frames_completed := s.frames_completed + 1,
    cur_swapchain_idx := (i + 1) % s.num_frames }

/-- GPU progress on slot fence `i`: the completed value can rise to `v`, but
never beyond the value the queue has signaled. -/
def gpu_complete (s : DeviceState) (i v : Nat) : DeviceState :=
  { s with
    completed :=
      if v ≤ s.signaled.getD i 0 then
        s.completed.set i (max (s.completed.getD i 0) v)
      else s.completed }

/-- One whole frame: the GPU advances the current slot fence (environment
input `adv`), then `begin_frame` runs — blocking the run if the slot fence is
still short of the awaited value — and `end_frame` finishes the frame. -/
def frameStep (adv : Nat) (s : DeviceState) : Option DeviceState :=
  match begin_frame (gpu_complete s s.cur_swapchain_idx adv) with
  | none => none
  | some s2 => some (end_frame s2)

/-- Run a sequence of frames from a starting state. -/
def runFrames : List Nat → DeviceState → Option DeviceState
  | [], s => some s
  | adv :: rest, s =>
    match frameStep adv s with
    | none => none
    | some s2 => runFrames rest s2

/-- Splitting a run at an intermediate point. -/
theorem runFrames_append :
    ∀ (l1 l2 : List Nat) (s : DeviceState),
      runFrames (l1 ++ l2) s = match runFrames l1 s with
        | none => none
        | some s1 => runFrames l2 s1
  | [], _, _ => rfl
  | a :: rest, l2, s => by
    show runFrames ((a :: rest) ++ l2) s = _
    simp only [List.cons_append, runFrames]
    cases frameStep a s with
    | none => rfl
    | some s2 => exact runFrames_append rest l2 s2

/-- Stepping the backbuffer index commutes with taking the frame number
modulo the slot count. -/
theorem mod_succ_cycle (nf k : Nat) : (k % nf + 1) % nf = (k + 1) % nf := by
  conv_rhs => rw [← Nat.div_add_mod k nf]
  rw [Nat.add_assoc, Nat.mul_add_mod]

/-- Reading a list at the index just written yields the written value. -/
theorem getD_set_self {α : Type} (l : List α) (i : Nat) (v d : α) (h : i < l.length) :
    (l.set i v).getD i d = v := by
  rw [List.getD_eq_getElem?_getD, List.getElem?_set_self (by simpa using h)]
  rfl

/-- In a window of fewer than `nf` steps the residue modulo `nf` determines
the number: if `a ≤ g < a + nf` and `g` and `a` share the residue, `g = a`. -/
theorem eq_of_mod_eq_of_within (nf a g : Nat) (hnf : 0 < nf) (hag : a ≤ g)
    (hlt : g < a + nf) (hm : g % nf = a % nf) : g = a := by
  obtain ⟨d, rfl⟩ := Nat.exists_eq_add_of_le hag
  have hd : d < nf := by omega
  have h1 : (a + d) % nf = ((a % nf) + d) % nf := by
    rw [Nat.add_mod, Nat.mod_eq_of_lt hd]
  rw [h1] at hm
  have hr : a % nf < nf := Nat.mod_lt a hnf
  rcases Nat.lt_or_ge (a % nf + d) nf with hc | hc
  · have := Nat.mod_eq_of_lt hc
    omega
  · have hsub : (a % nf + d) % nf = (a % nf + d - nf) % nf := by
      rw [Nat.mod_eq_sub_mod hc]
    have hlt2 : a % nf + d - nf < nf := by omega
    rw [hsub, Nat.mod_eq_of_lt hlt2] at hm
    omega

end FrameSync

namespace FrameSync

/-- Run invariant of the frame loop: lengths are stable, the backbuffer index
cycles with the frame number, the stored frame fence values coincide with the
values signaled at each slot fence (each slot fence was last signaled with
exactly the value `begin_frame` will wait on at the slot reuse), and the
history variable records, per slot, a signal frame that lies within the last
`num_frames` frames. -/
theorem runFrames_invariant (nf : Nat) (hnf : 0 < nf) (advs : List Nat) :
    ∀ (s : DeviceState), runFrames advs (initDevice nf) = some s →
      s.num_frames = nf
        ∧ s.frame_fence_values.length = nf
        ∧ s.signaled.length = nf
        ∧ s.completed.length = nf
        ∧ s.last_signal_frame.length = nf
        ∧ s.frames_completed = advs.length
        ∧ s.transitions_submitted = advs.length
        ∧ s.cur_swapchain_idx = advs.length % nf
        ∧ s.frame_fence_values = s.signaled
        ∧ (∀ j, j < nf → ∀ g, s.last_signal_frame.getD j none = some g →
            g % nf = j ∧ g < advs.length ∧ advs.length ≤ g + nf)
        ∧ (∀ j, j < nf → j < advs.length → (s.last_signal_frame.getD j none).isSome = true) := by
  induction advs using List.reverseRecOn with
  | nil =>
    intro s hrun
    have hs : s = initDevice nf := by
      simp only [runFrames] at hrun
      exact (Option.some_inj.mp hrun).symm
    subst hs
    refine ⟨rfl, by simp [initDevice], by simp [initDevice], by simp [initDevice],
      by simp [initDevice], rfl, rfl, by simp [initDevice], rfl, ?_, ?_⟩
    · intro j _ g hg
      rw [show (initDevice nf).last_signal_frame = List.replicate nf none from rfl,
        D3D12BindGroupBuilder.getD_replicate_self] at hg
      exact absurd hg (by simp)
    · intro j _ hj
      simp at hj
  | append_singleton l a ih =>
    intro s hrun
    rw [runFrames_append] at hrun
    cases hr1 : runFrames l (initDevice nf) with
    | none =>
      rw [hr1] at hrun
      exact absurd hrun (by simp)
    | some s1 =>
      rw [hr1] at hrun
      obtain ⟨hnum, hlv, hls, hlc, hll, hfc, hts, hcur, hvs, hlsig, hlsome⟩ := ih s1 hr1
      have hilt : s1.cur_swapchain_idx < nf := by
        rw [hcur]
        exact Nat.mod_lt _ hnf
      simp only [runFrames] at hrun
      cases hstep : frameStep a s1 with
      | none =>
        rw [hstep] at hrun
        exact absurd hrun (by simp)
      | some s2 =>
        rw [hstep] at hrun
        simp only [runFrames] at hrun
        obtain rfl : s2 = s := Option.some_inj.mp hrun
        unfold frameStep at hstep
        cases hb : begin_frame (gpu_complete s1 s1.cur_swapchain_idx a) with
        | none =>
          rw [hb] at hstep
          exact absurd hstep (by simp)
        | some s3 =>
          rw [hb] at hstep
          have hs2 : s2 = end_frame s3 := (Option.some_inj.mp hstep).symm
          simp only [begin_frame] at hb
          split at hb
          case isFalse => exact absurd hb (by simp)
          case isTrue hready =>
            have hs3 := (Option.some_inj.mp hb).symm
            subst hs3
            subst hs2
            have hlen : (l ++ [a]).length = l.length + 1 := by simp
            rw [hlen]
            simp only [end_frame, gpu_complete]
            refine ⟨hnum, ?_, ?_, ?_, ?_, ?_, ?_, ?_, ?_, ?_, ?_⟩
            · rw [List.length_set]
              exact hlv
            · rw [List.length_set]
              exact hls
            · split
              · rw [List.length_set]
                exact hlc
              · exact hlc
            · rw [List.length_set]
              exact hll
            · omega
            · omega
            · rw [hnum, hcur]
              exact mod_succ_cycle nf l.length
            · rw [getD_set_self _ _ _ _ (by rw [hlv]; exact hilt), hvs]
            · intro j hj g hg
              by_cases hji : j = s1.cur_swapchain_idx
              · subst hji
                rw [getD_set_self _ _ _ _ (by rw [hll]; exact hilt)] at hg
                obtain rfl : s1.frames_completed = g := Option.some_inj.mp hg
                rw [hfc]
                refine ⟨hcur.symm, by omega, by omega⟩
              · rw [D3D12BindGroupBuilder.getD_set_ne _ _ _ _ _
                  (fun h => hji h.symm)] at hg
                obtain ⟨hgm, hglt, hge⟩ := hlsig j hj g hg
                refine ⟨hgm, by omega, ?_⟩
                rcases Nat.lt_or_ge l.length nf with hcase | hcase
                · omega
                · have hmodeq : (l.length - nf) % nf = l.length % nf := by
                    conv_rhs => rw [show l.length = (l.length - nf) + nf by omega]
                    rw [Nat.add_mod_right]
                  have hgne : g ≠ l.length - nf := by
                    intro hgeq
                    apply hji
                    rw [← hgm, hgeq, hmodeq, ← hcur]
                  omega
            · intro j hj hjk
              by_cases hji : j = s1.cur_swapchain_idx
              · subst hji
                rw [getD_set_self _ _ _ _ (by rw [hll]; exact hilt)]
                rfl
              · rw [D3D12BindGroupBuilder.getD_set_ne _ _ _ _ _
                  (fun h => hji h.symm)]
                have hjlt : j < l.length := by
                  rcases Nat.lt_or_ge j l.length with h | h
                  · exact h
                  · exfalso
                    have : j = l.length := by omega
                    subst this
                    apply hji
                    rw [hcur, Nat.mod_eq_of_lt hj]
                exact hlsome j hj hjlt

end FrameSync

/-- C2: in every run of the frame loop, the `begin_frame` that targets frame
slot `i = cur_swapchain_idx` (the slot cycles with period `num_frames`, so the
previous use of the same slot was `num_frames` frames earlier) waits on the
stored frame fence value for that slot, which equals the value the slot fence
was signaled with at that previous use — recorded by the history variable as
frame `advs.length - num_frames`; `begin_frame` blocks exactly while the slot
fence completed value is below that value, and it records and submits the
swapchain-transition command list only when it proceeds. -/
theorem c2_begin_frame_waits_for_value_signaled_num_frames_earlier
    (nf : Nat) (advs : List Nat) (s : FrameSync.DeviceState) (hnf : 0 < nf)
    (hrun : FrameSync.runFrames advs (FrameSync.initDevice nf) = some s) :
    s.cur_swapchain_idx = advs.length % nf
      ∧ s.frame_fence_values.getD s.cur_swapchain_idx 0
          = s.signaled.getD s.cur_swapchain_idx 0
      ∧ (nf ≤ advs.length →
          s.last_signal_frame.getD s.cur_swapchain_idx none = some (advs.length - nf))
      ∧ (FrameSync.begin_frame s = none ↔
          s.completed.getD s.cur_swapchain_idx 0
            < s.signaled.getD s.cur_swapchain_idx 0)
      ∧ (∀ s2, FrameSync.begin_frame s = some s2 →
          s.signaled.getD s.cur_swapchain_idx 0
              ≤ s.completed.getD s.cur_swapchain_idx 0
            ∧ s2.transitions_submitted = s.transitions_submitted + 1) := by
  obtain ⟨hnum, hlv, hls, hlc, hll, hfc, hts, hcur, hvs, hlsig, hlsome⟩ :=
    FrameSync.runFrames_invariant nf hnf advs s hrun
  have hvsg : s.frame_fence_values.getD s.cur_swapchain_idx 0
      = s.signaled.getD s.cur_swapchain_idx 0 := by rw [hvs]
  refine ⟨hcur, hvsg, ?_, ?_, ?_⟩
  · intro hge
    have hilt : s.cur_swapchain_idx < nf := by
      rw [hcur]
      exact Nat.mod_lt _ hnf
    have hik : s.cur_swapchain_idx < advs.length := by omega
    obtain ⟨g, hg⟩ := Option.isSome_iff_exists.mp (hlsome s.cur_swapchain_idx hilt hik)
    obtain ⟨hgm, hglt, hgge⟩ := hlsig s.cur_swapchain_idx hilt g hg
    have hmodeq : (advs.length - nf) % nf = advs.length % nf := by
      conv_rhs => rw [show advs.length = (advs.length - nf) + nf by omega]
      rw [Nat.add_mod_right]
    have hgeq : g = advs.length - nf := by
      apply FrameSync.eq_of_mod_eq_of_within nf (advs.length - nf) g hnf (by omega) (by omega)
      rw [hgm, hmodeq, ← hcur]
    rw [hg, hgeq]
  · by_cases hready : s.frame_fence_values.getD s.cur_swapchain_idx 0
        ≤ s.completed.getD s.cur_swapchain_idx 0
    · simp only [FrameSync.begin_frame]
      rw [if_pos hready]
      constructor
      · intro h
        exact absurd h (by simp)
      · intro h
        exfalso
        omega
    · simp only [FrameSync.begin_frame]
      rw [if_neg hready]
      constructor
      · intro _
        omega
      · intro _
        rfl
  · intro s2 h2
    by_cases hready : s.frame_fence_values.getD s.cur_swapchain_idx 0
        ≤ s.completed.getD s.cur_swapchain_idx 0
    · simp only [FrameSync.begin_frame] at h2
      rw [if_pos hready] at h2
      obtain rfl := Option.some_inj.mp h2
      exact ⟨by omega, rfl⟩
    · simp only [FrameSync.begin_frame] at h2
      rw [if_neg hready] at h2
      exact absurd h2 (by simp)

/-- Witness for C2: a run of three frames on a two-slot device.  After the
run the current slot is 1; its fence was last signaled at frame
`3 - num_frames = 1` with value 1, exactly the value the next `begin_frame`
waits on, and all parts of the theorem hold at the concrete final state. -/
theorem c2_begin_frame_waits_witness :
    (⟨2, [2, 1], [2, 1], [1, 0], [some 2, some 1], 1, 3, 3⟩
        : FrameSync.DeviceState).cur_swapchain_idx = [0, 0, 1].length % 2
      ∧ (⟨2, [2, 1], [2, 1], [1, 0], [some 2, some 1], 1, 3, 3⟩
          : FrameSync.DeviceState).frame_fence_values.getD
            (⟨2, [2, 1], [2, 1], [1, 0], [some 2, some 1], 1, 3, 3⟩
              : FrameSync.DeviceState).cur_swapchain_idx 0
        = (⟨2, [2, 1], [2, 1], [1, 0], [some 2, some 1], 1, 3, 3⟩
            : FrameSync.DeviceState).signaled.getD
              (⟨2, [2, 1], [2, 1], [1, 0], [some 2, some 1], 1, 3, 3⟩
                : FrameSync.DeviceState).cur_swapchain_idx 0
      ∧ (2 ≤ [0, 0, 1].length →
          (⟨2, [2, 1], [2, 1], [1, 0], [some 2, some 1], 1, 3, 3⟩
              : FrameSync.DeviceState).last_signal_frame.getD
                (⟨2, [2, 1], [2, 1], [1, 0], [some 2, some 1], 1, 3, 3⟩
                  : FrameSync.DeviceState).cur_swapchain_idx none
            = some ([0, 0, 1].length - 2))
      ∧ (FrameSync.begin_frame
            (⟨2, [2, 1], [2, 1], [1, 0], [some 2, some 1], 1, 3, 3⟩
              : FrameSync.DeviceState) = none ↔
          (⟨2, [2, 1], [2, 1], [1, 0], [some 2, some 1], 1, 3, 3⟩
              : FrameSync.DeviceState).completed.getD
                (⟨2, [2, 1], [2, 1], [1, 0], [some 2, some 1], 1, 3, 3⟩
                  : FrameSync.DeviceState).cur_swapchain_idx 0
            < (⟨2, [2, 1], [2, 1], [1, 0], [some 2, some 1], 1, 3, 3⟩
                : FrameSync.DeviceState).signaled.getD
                  (⟨2, [2, 1], [2, 1], [1, 0], [some 2, some 1], 1, 3, 3⟩
                    : FrameSync.DeviceState).cur_swapchain_idx 0)
      ∧ (∀ s2, FrameSync.begin_frame
            (⟨2, [2, 1], [2, 1], [1, 0], [some 2, some 1], 1, 3, 3⟩
              : FrameSync.DeviceState) = some s2 →
          (⟨2, [2, 1], [2, 1], [1, 0], [some 2, some 1], 1, 3, 3⟩
              : FrameSync.DeviceState).signaled.getD
                (⟨2, [2, 1], [2, 1], [1, 0], [some 2, some 1], 1, 3, 3⟩
                  : FrameSync.DeviceState).cur_swapchain_idx 0
              ≤ (⟨2, [2, 1], [2, 1], [1, 0], [some 2, some 1], 1, 3, 3⟩
                  : FrameSync.DeviceState).completed.getD
                    (⟨2, [2, 1], [2, 1], [1, 0], [some 2, some 1], 1, 3, 3⟩
                      : FrameSync.DeviceState).cur_swapchain_idx 0
            ∧ s2.transitions_submitted
                = (⟨2, [2, 1], [2, 1], [1, 0], [some 2, some 1], 1, 3, 3⟩
                    : FrameSync.DeviceState).transitions_submitted + 1) :=
  c2_begin_frame_waits_for_value_signaled_num_frames_earlier 2 [0, 0, 1]
    ⟨2, [2, 1], [2, 1], [1, 0], [some 2, some 1], 1, 3, 3⟩
    (by decide) (by decide)
